import Mathlib

/-!
Shallow embedding of the coverage tools of src/server.py (and the
identical copies in src/final_project_se333_sidiqa/codebase/server.py).

Modelling conventions:
* XML documents parsed by xml.etree.ElementTree are modelled by the tree
  type `Elem`; ElementTree's findall with a descendant axis returns matches
  in document (pre-)order, modelled by `Elem.descendants`.
* Python int attribute values: a Python `int(el.get(k, 0))` call is
  modelled by `pyIntGetD`, and `int(el.get(k))` (no default) by `pyIntGet`;
  both return `Except String Int`, the error case standing for the Python
  exception raised by `int` on a non-numeric string or on None.
* Python float arithmetic over the small ratios appearing here is modelled
  exactly over `Rat`; Python's `round(x, 2)` (round-half-to-even) is
  modelled by `round2`.
* A Python value that is either an int or a float (the coverage dict stores
  the int default 0 but float percentages) is modelled by `PyNum`.
* The filesystem is a parameter `fs : String → Option String` mapping a
  path to the content of the file there (if any); `os.path.exists p` is
  `(fs p).isSome`.  The stdlib XML parser is a parameter
  `xmlParse : String → Except String Elem` taking a file's content to the
  parsed root element or a parse-error message.
-/

/-- Decimal value of a digit character. -/
def digitVal (c : Char) : Option Nat :=
  if c.isDigit then some (c.toNat - 48) else none

/-- Accumulate the decimal value of a digit run; none on a non-digit. -/
def digitsAux : List Char → Nat → Option Nat
  | [], acc => some acc
  | c :: cs, acc =>
    match digitVal c with
    | some d => digitsAux cs (acc * 10 + d)
    | none => none

/-- Parse an optionally signed run of decimal digits. -/
def pyIntChars : List Char → Option Int
  | [] => none
  | c :: cs =>
    if c == '-' then
      match cs with
      | [] => none
      | _ => (digitsAux cs 0).map (fun n => -(n : Int))
    else if c == '+' then
      match cs with
      | [] => none
      | _ => (digitsAux cs 0).map (fun n => (n : Int))
    else
      (digitsAux (c :: cs) 0).map (fun n => (n : Int))

/-- Python `int(s)` on a decimal string literal (optionally signed,
no surrounding whitespace): the strings appearing in JaCoCo reports.
Returns none when `int` would raise ValueError. -/
def pyInt? (s : String) : Option Int :=
  pyIntChars s.toList

/-- Whether the first list starts the second. -/
def strStarts : List Char → List Char → Bool
  | [], _ => true
  | _ :: _, [] => false
  | a :: as, b :: bs => a == b && strStarts as bs

/-- Whether the first list occurs contiguously inside the second. -/
def strFind : List Char → List Char → Bool
  | needle, [] => needle.isEmpty
  | needle, h :: t => strStarts needle (h :: t) || strFind needle t

/-- Python's substring test: `needle in hay` on strings. -/
def strIn (needle hay : String) : Bool :=
  strFind needle.toList hay.toList

/-- Scan characters keeping only those after the most recent slash. -/
def dropThroughSlash : List Char → List Char → List Char
  | [], acc => acc
  | c :: cs, acc =>
    if c == '/' then dropThroughSlash cs []
    else dropThroughSlash cs (acc ++ [c])

/-- Python `os.path.basename` (POSIX): the part after the last slash. -/
def basename (p : String) : String :=
  String.mk (dropThroughSlash p.toList [])

/-- If the first list starts the second, return what follows it. -/
def stripStarts : List Char → List Char → Option (List Char)
  | [], rest => some rest
  | _ :: _, [] => none
  | a :: as, b :: bs => if a == b then stripStarts as bs else none

/-- Left-to-right non-overlapping replacement with a fuel bound (the
fuel is the length of the scanned list, enough for any nonempty
pattern, which is the only way Python's `str.replace` is called here). -/
def replaceCharsF (pat rep : List Char) : Nat → List Char → List Char
  | _, [] => []
  | 0, l => l
  | fuel + 1, c :: cs =>
    match stripStarts pat (c :: cs) with
    | some rest => rep ++ replaceCharsF pat rep fuel rest
    | none => c :: replaceCharsF pat rep fuel cs

/-- Python `s.replace(pat, rep)` for a nonempty pattern. -/
def pyReplace (s pat rep : String) : String :=
  String.mk (replaceCharsF pat.toList rep.toList s.toList.length s.toList)

/-- Round-half-to-even to an integer, the rounding Python's `round` uses. -/
def roundHalfEven (q : Rat) : Int :=
  let f := ⌊q⌋
  let r := q - (f : Rat)
  if r < (1 : Rat) / 2 then f
  else if (1 : Rat) / 2 < r then f + 1
  else if f % 2 = 0 then f else f + 1

/-- Python `round(x, 2)` modelled over exact rationals. -/
def round2 (q : Rat) : Rat :=
  ((roundHalfEven (q * 100) : Int) : Rat) / 100

/-- A Python number: the coverage dict holds the int 0 as default but a
float for every computed percentage, and the two are distinguishable in
Python (type(x) is int vs float). -/
inductive PyNum where
  | int (n : Int)
  | float (q : Rat)
deriving DecidableEq

/-- Whether a `PyNum` is a Python float. -/
def PyNum.isFloat : PyNum → Bool
  | .int _ => false
  | .float _ => true

/-- An XML element as produced by xml.etree.ElementTree: a tag, an
attribute dictionary, and child elements in document order. -/
inductive Elem where
  | node (tag : String) (attrs : List (String × String)) (children : List Elem)

/-- The tag of an element. -/
def Elem.tag : Elem → String
  | .node t _ _ => t

/-- The children of an element. -/
def Elem.children : Elem → List Elem
  | .node _ _ cs => cs

/-- Python `el.get(k)`: the attribute value, if present. -/
def Elem.attr : Elem → String → Option String
  | .node _ attrs _, k => attrs.lookup k

mutual

/-- All proper descendants of an element in document (pre-)order: the
order in which ElementTree's `findall(".//…")` yields matches. -/
def Elem.descendants : Elem → List Elem
  | .node _ _ cs => descList cs

/-- Descendant-or-self lists of a list of sibling elements, in document
order. -/
def descList : List Elem → List Elem
  | [] => []
  | c :: cs => c :: (Elem.descendants c ++ descList cs)

end

/-- Python `int(el.get(k, 0))`: 0 when the attribute is absent, otherwise
the parsed value; error when `int` raises on a non-numeric string. -/
def pyIntGetD (e : Elem) (k : String) : Except String Int :=
  match e.attr k with
  | none => .ok 0
  | some s =>
    match pyInt? s with
    | some n => .ok n
    | none => .error ("invalid literal for int() with base 10: " ++ s)

/-- Python `int(el.get(k))` with no default: error when the attribute is
absent (int(None) raises TypeError) or non-numeric. -/
def pyIntGet (e : Elem) (k : String) : Except String Int :=
  match e.attr k with
  | none => .error "int() argument must be a string or a real number, not NoneType"
  | some s =>
    match pyInt? s with
    | some n => .ok n
    | none => .error ("invalid literal for int() with base 10: " ++ s)

/-- `root.findall(".//counter[@type=t]")`: all counter descendants whose
type attribute is present and equals `t`, in document order. -/
def countersOf (t : String) (root : Elem) : List Elem :=
  root.descendants.filter (fun e => e.tag == "counter" && e.attr "type" == some t)

/-- src/server.py `find_jacoco_path`: probe the three conventional report
locations in order and return the first existing one, else the not-found
sentinel string. `path_exists` models `os.path.exists`. -/
def find_jacoco_path (path_exists : String → Bool) (project_path : String) : String :=
  let jacoco_paths := [
    project_path ++ "/target/site/jacoco/jacoco.xml",
    project_path ++ "/target/jacoco.xml",
    project_path ++ "/build/jacoco/jacoco.xml"]
  match jacoco_paths.find? path_exists with
  | some path => path
  | none => "JaCoCo report not found. Run 'mvn clean test' first."

/-- The result dict of `total_coverage` in its success shape. -/
structure CoverageData where
  line_coverage : PyNum
  branch_coverage : PyNum
  method_coverage : PyNum
  instruction_coverage : PyNum
deriving DecidableEq

/-- Result of `total_coverage`: the coverage dict or an error dict. -/
inductive CovResult where
  | ok (data : CoverageData)
  | error (msg : String)
deriving DecidableEq

/-- One per-kind loop body of `total_coverage`: walk the matching counter
nodes in document order, overwriting the accumulator with the rounded
percentage whenever `covered + missed > 0`; an `int` failure aborts the
whole call (the loop runs inside the function's try block). -/
def covGo : List Elem → PyNum → Except String PyNum
  | [], acc => .ok acc
  | c :: rest, acc => do
    let covered ← pyIntGetD c "covered"
    let missed ← pyIntGetD c "missed"
    let total := covered + missed
    if total > 0 then
      covGo rest (PyNum.float (round2 ((covered : Rat) / (total : Rat) * 100)))
    else
      covGo rest acc

/-- The XML-tree part of `total_coverage`: the four per-kind loops run in
source order (LINE, BRANCH, METHOD, INSTRUCTION) over the dict initialised
to int 0 for each key. -/
def totalCoverageOfRoot (root : Elem) : Except String CoverageData := do
  let l ← covGo (countersOf "LINE" root) (PyNum.int 0)
  let b ← covGo (countersOf "BRANCH" root) (PyNum.int 0)
  let m ← covGo (countersOf "METHOD" root) (PyNum.int 0)
  let i ← covGo (countersOf "INSTRUCTION" root) (PyNum.int 0)
  .ok ⟨l, b, m, i⟩

/-- src/server.py `total_coverage`: locate the report, branch on the
"not found" sentinel substring, parse the file, and aggregate; an XML
parse error is returned as an error dict prefixed "Invalid JaCoCo XML: ",
any other fault as "Coverage parsing failed: ". -/
def total_coverage (fs : String → Option String)
    (xmlParse : String → Except String Elem) (project_path : String) : CovResult :=
  let jacoco_path := find_jacoco_path (fun p => (fs p).isSome) project_path
  if strIn "not found" jacoco_path then .error jacoco_path
  else
    match fs jacoco_path with
    | none => .error "Coverage parsing failed: report file disappeared before parsing"
    | some content =>
      match xmlParse content with
      | .error e => .error ("Invalid JaCoCo XML: " ++ e)
      | .ok root =>
        match totalCoverageOfRoot root with
        | .ok d => .ok d
        | .error e => .error ("Coverage parsing failed: " ++ e)

/-- One element of the uncovered_lines list built by `missing_coverage`. -/
structure UncoveredLine where
  line_number : Int
  instruction_count : Int
  branch_count : Int
deriving DecidableEq

/-- The result dict of `missing_coverage` in its success shape. -/
structure MissingData where
  file : String
  total_uncovered_lines : Nat
  uncovered_lines : List UncoveredLine
deriving DecidableEq

/-- Result of `missing_coverage`: the report dict or an error dict. -/
inductive MissingResult where
  | ok (d : MissingData)
  | error (msg : String)
deriving DecidableEq

/-- `sf.findall(".//line")`: all line descendants of a sourcefile node. -/
def linesOf (sf : Elem) : List Elem :=
  sf.descendants.filter (fun e => e.tag == "line")

/-- `root.findall(".//sourcefile")`: all sourcefile descendants. -/
def sourcefilesOf (root : Elem) : List Elem :=
  root.descendants.filter (fun e => e.tag == "sourcefile")

/-- The inner line loop of `missing_coverage`: `ci = int(line.get('ci', 0))`
is computed first; a line is appended exactly when `ci == 0`, and only then
are `nr` (no default: int(None) raises), `ci` again, and `cb` read. -/
def lineGo : List Elem → List UncoveredLine → Except String (List UncoveredLine)
  | [], acc => .ok acc
  | l :: rest, acc => do
    let ci ← pyIntGetD l "ci"
    if ci == 0 then
      let nr ← pyIntGet l "nr"
      let ci2 ← pyIntGetD l "ci"
      let cb ← pyIntGetD l "cb"
      lineGo rest (acc ++ [⟨nr, ci2, cb⟩])
    else
      lineGo rest acc

/-- The outer sourcefile loop of `missing_coverage`: an entry is processed
iff `file_name in sourcefile.get('name','') or file_path in …`. -/
def sfGo (file_name file_path : String) :
    List Elem → List UncoveredLine → Except String (List UncoveredLine)
  | [], acc => .ok acc
  | sf :: rest, acc =>
    let nm := (sf.attr "name").getD ""
    if strIn file_name nm || strIn file_path nm then do
      let acc2 ← lineGo (linesOf sf) acc
      sfGo file_name file_path rest acc2
    else
      sfGo file_name file_path rest acc

/-- The XML-tree part of `missing_coverage`:
`file_name = os.path.basename(file_path).replace('.java', '.class')`,
then the nested sourcefile/line loops. -/
def missingCoverageOfRoot (file_path : String) (root : Elem) :
    Except String MissingData :=
  let file_name := pyReplace (basename file_path) ".java" ".class"
  match sfGo file_name file_path (sourcefilesOf root) [] with
  | .error e => .error e
  | .ok lines => .ok ⟨file_path, lines.length, lines⟩

/-- src/server.py `missing_coverage`: locate the report, branch on the
"not found" sentinel substring, parse, and collect uncovered lines; every
fault inside the try block is returned as an error dict prefixed
"Coverage analysis failed: " (this function has only the broad handler). -/
def missing_coverage (fs : String → Option String)
    (xmlParse : String → Except String Elem)
    (file_path project_path : String) : MissingResult :=
  let jacoco_path := find_jacoco_path (fun p => (fs p).isSome) project_path
  if strIn "not found" jacoco_path then .error jacoco_path
  else
    match fs jacoco_path with
    | none => .error "Coverage analysis failed: report file disappeared before parsing"
    | some content =>
      match xmlParse content with
      | .error e => .error ("Coverage analysis failed: " ++ e)
      | .ok root =>
        match missingCoverageOfRoot file_path root with
        | .ok d => .ok d
        | .error e => .error ("Coverage analysis failed: " ++ e)

/-- A Python float for the purposes of the `divide` tool: exact rational
finite values plus the IEEE special values; the negative zero is the one
float equal to 0 but distinct from +0.0. -/
inductive PyFloat where
  | finite (q : Rat)
  | negZero
  | inf
  | negInf
  | nan
deriving DecidableEq

/-- Python `b == 0` on a float `b`: true exactly for +0.0 and -0.0. -/
def PyFloat.isZero : PyFloat → Bool
  | .finite q => q == 0
  | .negZero => true
  | _ => false

/-- Whether the float carries a negative sign (for signed-zero results). -/
def PyFloat.sgnNeg : PyFloat → Bool
  | .finite q => decide (q < 0)
  | .negZero => true
  | .negInf => true
  | .inf => false
  | .nan => false

/-- Python float division `a / b`: raises ZeroDivisionError when the
divisor is a zero, otherwise follows the IEEE sign and special-value
rules (finite quotients taken exactly over the rationals). -/
def pyFloatDiv (a b : PyFloat) : Except String PyFloat :=
  if b.isZero then .error "float division by zero"
  else
    match a, b with
    | .nan, _ => .ok .nan
    | _, .nan => .ok .nan
    | .inf, .finite q => .ok (if q < 0 then .negInf else .inf)
    | .negInf, .finite q => .ok (if q < 0 then .inf else .negInf)
    | .inf, _ => .ok .nan
    | .negInf, _ => .ok .nan
    | a, .inf => .ok (if a.sgnNeg then .negZero else .finite 0)
    | a, .negInf => .ok (if a.sgnNeg then .finite 0 else .negZero)
    | .negZero, .finite q => .ok (if q < 0 then .finite 0 else .negZero)
    | .finite p, .finite q =>
      .ok (if p == 0 && q < 0 then .negZero else .finite (p / q))
    | _, .negZero => .ok .nan

/-- src/server.py `divide`: `if b == 0: return float('inf')` guards the
division, so the ZeroDivisionError branch of `/` is never reached. -/
def divide (a b : PyFloat) : Except String PyFloat :=
  if b.isZero then .ok .inf else pyFloatDiv a b

/-!
Embedding of src/final_project_se333_sidiqa/codebase/server.py, the second
copy of the same tools in this repository. Its `find_jacoco_path`,
`total_coverage` and `missing_coverage` bodies are translated here
independently under the `codebase` namespace, over the same Python/XML
substrate.
-/

namespace codebase

/-- codebase/server.py `find_jacoco_path`. -/
def find_jacoco_path (path_exists : String → Bool) (project_path : String) : String :=
  let jacoco_paths := [
    project_path ++ "/target/site/jacoco/jacoco.xml",
    project_path ++ "/target/jacoco.xml",
    project_path ++ "/build/jacoco/jacoco.xml"]
  match jacoco_paths.find? path_exists with
  | some path => path
  | none => "JaCoCo report not found. Run 'mvn clean test' first."

/-- codebase/server.py: counter nodes of a given type, document order. -/
def countersOf (t : String) (root : Elem) : List Elem :=
  root.descendants.filter (fun e => e.tag == "counter" && e.attr "type" == some t)

/-- codebase/server.py: one per-kind counter loop of `total_coverage`. -/
def covGo : List Elem → PyNum → Except String PyNum
  | [], acc => .ok acc
  | c :: rest, acc => do
    let covered ← pyIntGetD c "covered"
    let missed ← pyIntGetD c "missed"
    let total := covered + missed
    if total > 0 then
      covGo rest (PyNum.float (round2 ((covered : Rat) / (total : Rat) * 100)))
    else
      covGo rest acc

/-- codebase/server.py: the XML-tree part of `total_coverage`. -/
def totalCoverageOfRoot (root : Elem) : Except String CoverageData := do
  let l ← covGo (countersOf "LINE" root) (PyNum.int 0)
  let b ← covGo (countersOf "BRANCH" root) (PyNum.int 0)
  let m ← covGo (countersOf "METHOD" root) (PyNum.int 0)
  let i ← covGo (countersOf "INSTRUCTION" root) (PyNum.int 0)
  .ok ⟨l, b, m, i⟩

/-- codebase/server.py `total_coverage`. -/
def total_coverage (fs : String → Option String)
    (xmlParse : String → Except String Elem) (project_path : String) : CovResult :=
  let jacoco_path := find_jacoco_path (fun p => (fs p).isSome) project_path
  if strIn "not found" jacoco_path then .error jacoco_path
  else
    match fs jacoco_path with
    | none => .error "Coverage parsing failed: report file disappeared before parsing"
    | some content =>
      match xmlParse content with
      | .error e => .error ("Invalid JaCoCo XML: " ++ e)
      | .ok root =>
        match totalCoverageOfRoot root with
        | .ok d => .ok d
        | .error e => .error ("Coverage parsing failed: " ++ e)

/-- codebase/server.py: line descendants of a sourcefile node. -/
def linesOf (sf : Elem) : List Elem :=
  sf.descendants.filter (fun e => e.tag == "line")

/-- codebase/server.py: sourcefile descendants of the root. -/
def sourcefilesOf (root : Elem) : List Elem :=
  root.descendants.filter (fun e => e.tag == "sourcefile")

/-- codebase/server.py: the inner line loop of `missing_coverage`. -/
def lineGo : List Elem → List UncoveredLine → Except String (List UncoveredLine)
  | [], acc => .ok acc
  | l :: rest, acc => do
    let ci ← pyIntGetD l "ci"
    if ci == 0 then
      let nr ← pyIntGet l "nr"
      let ci2 ← pyIntGetD l "ci"
      let cb ← pyIntGetD l "cb"
      lineGo rest (acc ++ [⟨nr, ci2, cb⟩])
    else
      lineGo rest acc

/-- codebase/server.py: the outer sourcefile loop of `missing_coverage`. -/
def sfGo (file_name file_path : String) :
    List Elem → List UncoveredLine → Except String (List UncoveredLine)
  | [], acc => .ok acc
  | sf :: rest, acc =>
    let nm := (sf.attr "name").getD ""
    if strIn file_name nm || strIn file_path nm then do
      let acc2 ← lineGo (linesOf sf) acc
      sfGo file_name file_path rest acc2
    else
      sfGo file_name file_path rest acc

/-- codebase/server.py: the XML-tree part of `missing_coverage`. -/
def missingCoverageOfRoot (file_path : String) (root : Elem) :
    Except String MissingData :=
  let file_name := pyReplace (basename file_path) ".java" ".class"
  match sfGo file_name file_path (sourcefilesOf root) [] with
  | .error e => .error e
  | .ok lines => .ok ⟨file_path, lines.length, lines⟩

/-- codebase/server.py `missing_coverage`. -/
def missing_coverage (fs : String → Option String)
    (xmlParse : String → Except String Elem)
    (file_path project_path : String) : MissingResult :=
  let jacoco_path := find_jacoco_path (fun p => (fs p).isSome) project_path
  if strIn "not found" jacoco_path then .error jacoco_path
  else
    match fs jacoco_path with
    | none => .error "Coverage analysis failed: report file disappeared before parsing"
    | some content =>
      match xmlParse content with
      | .error e => .error ("Coverage analysis failed: " ++ e)
      | .ok root =>
        match missingCoverageOfRoot file_path root with
        | .ok d => .ok d
        | .error e => .error ("Coverage analysis failed: " ++ e)

end codebase

/-!
Specification-side characterisations: the four counter kinds, the node
§4.2 says is kept (the last matching counter in document order with a
positive total), and well-formedness of a report (every counter node's
covered/missed attributes are numeric, so the Python `int` calls succeed).
-/

/-- The four counter kinds of the coverage dict. -/
inductive CounterKind where
  | line
  | branch
  | method
  | instruction
deriving DecidableEq

/-- The type attribute value the report uses for each kind. -/
def kindType : CounterKind → String
  | .line => "LINE"
  | .branch => "BRANCH"
  | .method => "METHOD"
  | .instruction => "INSTRUCTION"

/-- The coverage-dict entry for a kind. -/
def CoverageData.get : CoverageData → CounterKind → PyNum
  | d, .line => d.line_coverage
  | d, .branch => d.branch_coverage
  | d, .method => d.method_coverage
  | d, .instruction => d.instruction_coverage

/-- Whether an `Except` is a success. -/
def exOk {ε α : Type} : Except ε α → Bool
  | .ok _ => true
  | .error _ => false

/-- Both int conversions of a counter's attributes succeed. -/
def goodCounter (e : Elem) : Bool :=
  exOk (pyIntGetD e "covered") && exOk (pyIntGetD e "missed")

/-- Well-formed report: every counter node carries numeric (or absent)
covered/missed attributes. -/
def wellFormedReport (root : Elem) : Bool :=
  (root.descendants.filter (fun e => e.tag == "counter")).all goodCounter

/-- The covered value of a counter node (0 if the conversion fails). -/
def covD (e : Elem) : Int :=
  match pyIntGetD e "covered" with
  | .ok n => n
  | .error _ => 0

/-- The missed value of a counter node (0 if the conversion fails). -/
def misD (e : Elem) : Int :=
  match pyIntGetD e "missed" with
  | .ok n => n
  | .error _ => 0

/-- A counter node that converts cleanly and has a positive total. -/
def posTotal (e : Elem) : Bool :=
  goodCounter e && decide (covD e + misD e > 0)

/-- The percentage the aggregator computes from one counter node. -/
def pctQ (e : Elem) : Rat :=
  round2 ((covD e : Rat) / ((covD e + misD e : Int) : Rat) * 100)

/-- The last element of the list satisfying `posTotal`: the counter §4.2
says the aggregator keeps. -/
def lastPos : List Elem → Option Elem
  | [] => none
  | c :: rest =>
    match lastPos rest with
    | some d => some d
    | none => if posTotal c then some c else none

/-- `lastPos` is the last positive-total element in list order. -/
theorem lastPos_eq_getLast? (l : List Elem) :
    lastPos l = (l.filter posTotal).getLast? := by
  induction l with
  | nil => rfl
  | cons c rest ih =>
    simp only [lastPos, ih, List.filter_cons]
    cases h : (rest.filter posTotal).getLast? with
    | some d =>
      cases hp : posTotal c <;>
        simp [hp, List.getLast?_cons, h, Option.getD]
    | none =>
      have : rest.filter posTotal = [] := by
        cases hf : rest.filter posTotal with
        | nil => rfl
        | cons x xs => rw [hf] at h; simp [List.getLast?] at h
      cases hp : posTotal c <;> simp [hp, this, h]

/-- The value the dict ends with for one kind. -/
def kindValue (t : String) (root : Elem) : PyNum :=
  match lastPos (countersOf t root) with
  | some c => PyNum.float (pctQ c)
  | none => PyNum.int 0

theorem exOk_ex {ε α : Type} {x : Except ε α} (h : exOk x = true) :
    ∃ a, x = .ok a := by
  cases x with
  | ok a => exact ⟨a, rfl⟩
  | error e => simp [exOk] at h

theorem exBind_ok {ε α β : Type} (a : α) (f : α → Except ε β) :
    (Except.ok a : Except ε α) >>= f = f a := rfl

/-- The per-kind loop on good counters: the result is the percentage of
the last positive-total node, or the starting accumulator if none. -/
theorem covGo_good (l : List Elem) (acc : PyNum)
    (h : ∀ e ∈ l, goodCounter e = true) :
    covGo l acc = .ok (match lastPos l with
      | some c => PyNum.float (pctQ c)
      | none => acc) := by
  induction l generalizing acc with
  | nil => rfl
  | cons c rest ih =>
    have hc : goodCounter c = true := h c (List.mem_cons_self c rest)
    have hrest : ∀ e ∈ rest, goodCounter e = true :=
      fun e he => h e (List.mem_cons_of_mem c he)
    have hc' := hc
    rw [goodCounter, Bool.and_eq_true] at hc'
    obtain ⟨cov, hcov⟩ := exOk_ex hc'.1
    obtain ⟨mis, hmis⟩ := exOk_ex hc'.2
    have hcd : covD c = cov := by simp [covD, hcov]
    have hmd : misD c = mis := by simp [misD, hmis]
    simp only [covGo, hcov, hmis, exBind_ok]
    by_cases hpos : cov + mis > 0
    · have hpt : posTotal c = true := by
        simp [posTotal, hc, hcd, hmd]
        exact hpos
      rw [if_pos hpos, ih _ hrest]
      cases hl : lastPos rest with
      | some d => simp [lastPos, hl]
      | none => simp [lastPos, hl, hpt, pctQ, hcd, hmd]
    · have hpt : posTotal c = false := by
        simp [posTotal, hc, hcd, hmd]
        exact Int.not_lt.mp hpos
      rw [if_neg hpos, ih _ hrest]
      cases hl : lastPos rest with
      | some d => simp [lastPos, hl]
      | none => simp [lastPos, hl, hpt]

/-- In a well-formed report every type-selected counter is good. -/
theorem wf_counters {root : Elem} (h : wellFormedReport root = true)
    (t : String) : ∀ e ∈ countersOf t root, goodCounter e = true := by
  intro e he
  rw [wellFormedReport, List.all_eq_true] at h
  refine h e ?_
  rw [countersOf] at he
  rw [List.mem_filter] at he ⊢
  exact ⟨he.1, by
    have := he.2
    rw [Bool.and_eq_true] at this
    exact this.1⟩

/-- On a well-formed report the aggregation succeeds and each entry is
the `kindValue` of its kind. -/
theorem totalRoot_wf {root : Elem} (h : wellFormedReport root = true) :
    totalCoverageOfRoot root = .ok ⟨kindValue "LINE" root,
      kindValue "BRANCH" root, kindValue "METHOD" root,
      kindValue "INSTRUCTION" root⟩ := by
  have hL := covGo_good (countersOf "LINE" root) (PyNum.int 0) (wf_counters h "LINE")
  have hB := covGo_good (countersOf "BRANCH" root) (PyNum.int 0) (wf_counters h "BRANCH")
  have hM := covGo_good (countersOf "METHOD" root) (PyNum.int 0) (wf_counters h "METHOD")
  have hI := covGo_good (countersOf "INSTRUCTION" root) (PyNum.int 0) (wf_counters h "INSTRUCTION")
  simp only [totalCoverageOfRoot, hL, hB, hM, hI, exBind_ok]
  rfl

/-- C1: for every well-formed report document and each of the four counter
kinds (LINE, BRANCH, METHOD, INSTRUCTION), `total_coverage` searches
counter nodes of that kind anywhere in the document and the returned
percentage for that kind is the one computed from the last matching
counter node in document order whose covered+missed total is positive. -/
theorem total_coverage_keeps_last_positive_counter
    (root : Elem) (k : CounterKind) (c : Elem)
    (hwf : wellFormedReport root = true)
    (hsel : lastPos (countersOf (kindType k) root) = some c) :
    ∃ d, totalCoverageOfRoot root = Except.ok d ∧
      d.get k = PyNum.float
        (round2 ((covD c : Rat) / ((covD c + misD c : Int) : Rat) * 100)) := by
  refine ⟨_, totalRoot_wf hwf, ?_⟩
  cases k <;>
    simp_all [CoverageData.get, kindValue, kindType, pctQ]

/-- A two-counter LINE document: a 2/2 counter followed by an 80/20 one;
document order keeps the later counter. -/
def doc1 : Elem :=
  Elem.node "report" []
    [Elem.node "counter" [("type", "LINE"), ("covered", "2"), ("missed", "2")] [],
     Elem.node "counter" [("type", "LINE"), ("covered", "80"), ("missed", "20")] []]

/-- The second counter of `doc1`. -/
def doc1c : Elem :=
  Elem.node "counter" [("type", "LINE"), ("covered", "80"), ("missed", "20")] []

theorem total_coverage_keeps_last_positive_counter_witness :
    ∃ d, totalCoverageOfRoot doc1 = Except.ok d ∧
      d.get CounterKind.line = PyNum.float 80 := by
  have h := total_coverage_keeps_last_positive_counter doc1 CounterKind.line doc1c
    (by decide) rfl
  have hc : covD doc1c = 80 := by decide
  have hm : misD doc1c = 20 := by decide
  rw [hc, hm] at h
  norm_num [round2, roundHalfEven] at h
  exact h

/-- C4: `find_jacoco_path` probes exactly the three candidate suffixes
target/site/jacoco/jacoco.xml, target/jacoco.xml, build/jacoco/jacoco.xml
in that fixed order and returns the first existing path; when none exists
it returns the not-found sentinel string carrying a remediation hint
(no exception: the function is total). -/
theorem find_jacoco_path_probes_in_order
    (path_exists : String → Bool) (project_path : String) :
    (path_exists (project_path ++ "/target/site/jacoco/jacoco.xml") = true →
      find_jacoco_path path_exists project_path =
        project_path ++ "/target/site/jacoco/jacoco.xml") ∧
    (path_exists (project_path ++ "/target/site/jacoco/jacoco.xml") = false →
      path_exists (project_path ++ "/target/jacoco.xml") = true →
      find_jacoco_path path_exists project_path =
        project_path ++ "/target/jacoco.xml") ∧
    (path_exists (project_path ++ "/target/site/jacoco/jacoco.xml") = false →
      path_exists (project_path ++ "/target/jacoco.xml") = false →
      path_exists (project_path ++ "/build/jacoco/jacoco.xml") = true →
      find_jacoco_path path_exists project_path =
        project_path ++ "/build/jacoco/jacoco.xml") ∧
    (path_exists (project_path ++ "/target/site/jacoco/jacoco.xml") = false →
      path_exists (project_path ++ "/target/jacoco.xml") = false →
      path_exists (project_path ++ "/build/jacoco/jacoco.xml") = false →
      find_jacoco_path path_exists project_path =
        "JaCoCo report not found. Run 'mvn clean test' first." ∧
      strIn "not found" (find_jacoco_path path_exists project_path) = true ∧
      strIn "Run 'mvn clean test' first."
        (find_jacoco_path path_exists project_path) = true) := by
  refine ⟨?_, ?_, ?_, ?_⟩
  · intro h1
    simp [find_jacoco_path, List.find?, h1]
  · intro h1 h2
    simp [find_jacoco_path, List.find?, h1, h2]
  · intro h1 h2 h3
    simp [find_jacoco_path, List.find?, h1, h2, h3]
  · intro h1 h2 h3
    refine ⟨?_, ?_, ?_⟩ <;> simp [find_jacoco_path, List.find?, h1, h2, h3] <;> decide

theorem find_jacoco_path_probes_in_order_witness :
    find_jacoco_path (fun p => p == "proj/target/jacoco.xml") "proj" =
      "proj/target/jacoco.xml" ∧
    find_jacoco_path (fun _ => false) "proj" =
      "JaCoCo report not found. Run 'mvn clean test' first." :=
  ⟨(find_jacoco_path_probes_in_order (fun p => p == "proj/target/jacoco.xml")
      "proj").2.1 (by decide) (by decide),
   ((find_jacoco_path_probes_in_order (fun _ => false)
      "proj").2.2.2 rfl rfl rfl).1⟩

/-- The filesystem of the C2 counterexample: one malformed report under a
project directory whose own name contains the substring "not found". -/
def fs2 : String → Option String := fun p =>
  if p == "not found/target/site/jacoco/jacoco.xml" then some "<bad" else none

/-- The parser of the C2 counterexample: on the malformed content it
reports the usual expat message. -/
def xmlParse2 : String → Except String Elem := fun _ =>
  .error "no element found: line 1, column 4"

/-- C2 counterexample: the report file exists and is malformed, yet the
error mapping returned carries the located path, not the parser's message,
because the path itself contains the sentinel substring "not found" and
total_coverage branches on that substring before parsing. -/
theorem total_coverage_malformed_counterexample :
    fs2 "not found/target/site/jacoco/jacoco.xml" = some "<bad" ∧
    xmlParse2 "<bad" = .error "no element found: line 1, column 4" ∧
    total_coverage fs2 xmlParse2 "not found" =
      CovResult.error "not found/target/site/jacoco/jacoco.xml" ∧
    strIn "no element found" "not found/target/site/jacoco/jacoco.xml" = false := by
  refine ⟨by decide, rfl, by decide, by decide⟩

/-- C2 amended: for every input file whose content is not well-formed XML,
provided the located report path does not itself contain the substring
"not found", `total_coverage` returns an error mapping carrying the
parser's message, and never lets the parse fault propagate (the function
is total and the error is a returned value). -/
theorem total_coverage_malformed_returns_error
    (fs : String → Option String) (xmlParse : String → Except String Elem)
    (project_path content m : String)
    (hnf : strIn "not found"
      (find_jacoco_path (fun p => (fs p).isSome) project_path) = false)
    (hcontent : fs (find_jacoco_path (fun p => (fs p).isSome) project_path) =
      some content)
    (hparse : xmlParse content = .error m) :
    total_coverage fs xmlParse project_path =
      CovResult.error ("Invalid JaCoCo XML: " ++ m) := by
  simp [total_coverage, hnf, hcontent, hparse]

/-- The filesystem of the C2 witness: a malformed report in an ordinary
project directory. -/
def fs2w : String → Option String := fun p =>
  if p == "proj/target/site/jacoco/jacoco.xml" then some "<bad" else none

theorem total_coverage_malformed_returns_error_witness :
    total_coverage fs2w xmlParse2 "proj" =
      CovResult.error "Invalid JaCoCo XML: no element found: line 1, column 4" :=
  total_coverage_malformed_returns_error fs2w xmlParse2 "proj" "<bad"
    "no element found: line 1, column 4" (by decide) (by decide) rfl

/-- The C3 counterexample document: a positive 2/2 LINE counter followed
by a 0/0 LINE counter. -/
def doc3 : Elem :=
  Elem.node "report" []
    [Elem.node "counter" [("type", "LINE"), ("covered", "2"), ("missed", "2")] [],
     Elem.node "counter" [("type", "LINE"), ("covered", "0"), ("missed", "0")] []]

/-- The 0/0 counter of `doc3`. -/
def doc3z : Elem :=
  Elem.node "counter" [("type", "LINE"), ("covered", "0"), ("missed", "0")] []

/-- C3 counterexample: `doc3z` is a LINE counter with covered=0, missed=0
and it is the last LINE counter of the document (so no later same-kind
node has a positive total), yet the LINE percentage is 50, not the
default 0: the earlier positive counter already overwrote it. -/
theorem total_coverage_zero_counter_counterexample :
    covD doc3z = 0 ∧ misD doc3z = 0 ∧
    (countersOf "LINE" doc3).getLast? = some doc3z ∧
    totalCoverageOfRoot doc3 =
      Except.ok ⟨PyNum.float 50, PyNum.int 0, PyNum.int 0, PyNum.int 0⟩ ∧
    PyNum.float 50 ≠ PyNum.int 0 ∧ PyNum.float 50 ≠ PyNum.float 0 := by
  refine ⟨by decide, by decide, rfl, ?_, by decide, by decide⟩
  rw [totalRoot_wf (by decide)]
  have h50 : pctQ (Elem.node "counter"
      [("type", "LINE"), ("covered", "2"), ("missed", "2")] []) = 50 := by
    simp only [pctQ, show covD (Elem.node "counter"
        [("type", "LINE"), ("covered", "2"), ("missed", "2")] []) = 2 from by decide,
      show misD (Elem.node "counter"
        [("type", "LINE"), ("covered", "2"), ("missed", "2")] []) = 2 from by decide]
    norm_num [round2, roundHalfEven]
  rw [show kindValue "LINE" doc3 = PyNum.float (pctQ (Elem.node "counter"
      [("type", "LINE"), ("covered", "2"), ("missed", "2")] [])) from rfl]
  rw [show kindValue "BRANCH" doc3 = PyNum.int 0 from rfl]
  rw [show kindValue "METHOD" doc3 = PyNum.int 0 from rfl]
  rw [show kindValue "INSTRUCTION" doc3 = PyNum.int 0 from rfl]
  rw [h50]

/-- No positive-total element means no selected element. -/
theorem lastPos_none {l : List Elem}
    (h : ∀ e ∈ l, posTotal e = false) : lastPos l = none := by
  induction l with
  | nil => rfl
  | cons c rest ih =>
    have hr := ih (fun e he => h e (List.mem_cons_of_mem c he))
    simp [lastPos, hr, h c (List.mem_cons_self c rest)]

/-- C3 amended: for every counter node of a given kind with covered=0 and
missed=0, provided no node of that kind anywhere in the document has a
positive covered+missed total, the kind's percentage stays at the default
0 and no division-by-zero fault occurs (the aggregation returns a success
value). -/
theorem total_coverage_zero_total_defaults
    (root : Elem) (k : CounterKind) (c : Elem)
    (hwf : wellFormedReport root = true)
    (hmem : c ∈ countersOf (kindType k) root)
    (hcov : covD c = 0) (hmis : misD c = 0)
    (hnone : ∀ e ∈ countersOf (kindType k) root, posTotal e = false) :
    ∃ d, totalCoverageOfRoot root = Except.ok d ∧
      d.get k = PyNum.int 0 := by
  refine ⟨_, totalRoot_wf hwf, ?_⟩
  have hlp := lastPos_none hnone
  cases k <;> simp_all [CoverageData.get, kindValue, kindType]

/-- A document whose only LINE counter is 0/0. -/
def doc3w : Elem :=
  Elem.node "report" []
    [Elem.node "counter" [("type", "LINE"), ("covered", "0"), ("missed", "0")] []]

theorem total_coverage_zero_total_defaults_witness :
    ∃ d, totalCoverageOfRoot doc3w = Except.ok d ∧
      d.get CounterKind.line = PyNum.int 0 :=
  total_coverage_zero_total_defaults doc3w CounterKind.line
    (Elem.node "counter" [("type", "LINE"), ("covered", "0"), ("missed", "0")] [])
    (by decide) (List.mem_singleton.mpr rfl) (by decide) (by decide)
    (by decide)

/-- A report whose root-scope LINE counter is covered=80, missed=20. -/
def doc80 : Elem :=
  Elem.node "report" []
    [Elem.node "counter" [("type", "LINE"), ("covered", "80"), ("missed", "20")] []]

/-- The counter of `doc80`. -/
def doc80c : Elem :=
  Elem.node "counter" [("type", "LINE"), ("covered", "80"), ("missed", "20")] []

/-- C5: for every counter kind whose selected node has a positive total,
the reported percentage is round(covered / (covered + missed) * 100, 2);
in particular a report whose root-scope LINE counter has covered=80 and
missed=20 yields line_coverage = 80.0. -/
theorem total_coverage_percentage_formula :
    (∀ (root : Elem) (k : CounterKind) (c : Elem) (cov mis : Int),
      wellFormedReport root = true →
      lastPos (countersOf (kindType k) root) = some c →
      pyIntGetD c "covered" = .ok cov →
      pyIntGetD c "missed" = .ok mis →
      0 < cov + mis →
      ∃ d, totalCoverageOfRoot root = Except.ok d ∧
        d.get k = PyNum.float
          (round2 ((cov : Rat) / ((cov : Rat) + (mis : Rat)) * 100))) ∧
    totalCoverageOfRoot doc80 =
      Except.ok ⟨PyNum.float 80, PyNum.int 0, PyNum.int 0, PyNum.int 0⟩ := by
  constructor
  · intro root k c cov mis hwf hsel hcov hmis _hpos
    refine ⟨_, totalRoot_wf hwf, ?_⟩
    have hcd : covD c = cov := by simp [covD, hcov]
    have hmd : misD c = mis := by simp [misD, hmis]
    have hcast : ((cov + mis : Int) : Rat) = (cov : Rat) + (mis : Rat) := by
      push_cast
      ring
    cases k <;> simp_all [CoverageData.get, kindValue, kindType, pctQ]
  · rw [totalRoot_wf (by decide)]
    have h80 : pctQ doc80c = 80 := by
      simp only [pctQ, show covD doc80c = 80 from by decide,
        show misD doc80c = 20 from by decide]
      norm_num [round2, roundHalfEven]
    rw [show kindValue "LINE" doc80 = PyNum.float (pctQ doc80c) from rfl]
    rw [show kindValue "BRANCH" doc80 = PyNum.int 0 from rfl]
    rw [show kindValue "METHOD" doc80 = PyNum.int 0 from rfl]
    rw [show kindValue "INSTRUCTION" doc80 = PyNum.int 0 from rfl]
    rw [h80]

theorem total_coverage_percentage_formula_witness :
    ∃ d, totalCoverageOfRoot doc80 = Except.ok d ∧
      d.get CounterKind.line = PyNum.float 80 := by
  have h := total_coverage_percentage_formula.1 doc80 CounterKind.line doc80c
    80 20 (by decide) rfl rfl rfl (by decide)
  norm_num [round2, roundHalfEven] at h
  exact h

/-- `lastPos` only selects positive-total nodes. -/
theorem lastPos_posTotal {l : List Elem} {d : Elem}
    (h : lastPos l = some d) : posTotal d = true := by
  induction l with
  | nil => exact absurd h (by simp [lastPos])
  | cons c rest ih =>
    cases hl : lastPos rest with
    | some e =>
      simp only [lastPos, hl, Option.some.injEq] at h
      subst h
      exact ih hl
    | none =>
      simp only [lastPos, hl] at h
      by_cases hp : posTotal c = true
      · rw [if_pos hp] at h
        injection h with h'
        subst h'
        exact hp
      · rw [if_neg hp] at h
        cases h

/-- A positive-total member forces a selection. -/
theorem lastPos_isSome {l : List Elem} {c : Elem}
    (hc : c ∈ l) (hp : posTotal c = true) : ∃ d, lastPos l = some d := by
  induction l with
  | nil => cases hc
  | cons a rest ih =>
    cases hl : lastPos rest with
    | some d => exact ⟨d, by simp [lastPos, hl]⟩
    | none =>
      cases hc with
      | head => exact ⟨c, by simp [lastPos, hl, hp]⟩
      | tail _ hmem =>
        obtain ⟨d, hd⟩ := ih hmem
        rw [hd] at hl
        cases hl

/-- Document order distributes over sibling concatenation. -/
theorem descList_append (xs ys : List Elem) :
    descList (xs ++ ys) = descList xs ++ descList ys := by
  induction xs with
  | nil => rfl
  | cons c cs ih => simp [descList, ih]

/-- The C6 counterexample document: BRANCH present via a 0/0 counter,
LINE entirely absent. -/
def doc6 : Elem :=
  Elem.node "report" []
    [Elem.node "counter" [("type", "BRANCH"), ("covered", "0"), ("missed", "0")] []]

/-- C6 counterexample: LINE is entirely absent from doc6 and BRANCH is
present, yet the output value for the present kind BRANCH is the int 0,
not a float: a present kind whose counters all have zero total keeps the
int default. -/
theorem total_coverage_absent_kind_counterexample :
    countersOf "LINE" doc6 = [] ∧
    countersOf "BRANCH" doc6 ≠ [] ∧
    totalCoverageOfRoot doc6 =
      Except.ok ⟨PyNum.int 0, PyNum.int 0, PyNum.int 0, PyNum.int 0⟩ ∧
    PyNum.isFloat (PyNum.int 0) = false := by
  exact ⟨rfl, List.cons_ne_nil _ _, rfl, rfl⟩

/-- A report whose LINE counter has no covered attribute: the code treats
it as covered=0, and 0/20 still produces a float percentage of 0.0. -/
def docM : Elem :=
  Elem.node "report" []
    [Elem.node "counter" [("type", "LINE"), ("missed", "20")] []]

/-- The counter of `docM`. -/
def docMc : Elem :=
  Elem.node "counter" [("type", "LINE"), ("missed", "20")] []

/-- C6 amended: for every well-formed report, a kind entirely absent from
the document keeps the int default 0; the value of a kind having some
positive-total counter is a float; a counter missing its covered attribute
is treated as covered=0 (docM yields line_coverage 0.0, a float); and
counter nodes of unknown type never affect the result. -/
theorem total_coverage_defaults_and_unknown_kinds :
    (∀ (root : Elem) (k : CounterKind),
      wellFormedReport root = true →
      countersOf (kindType k) root = [] →
      ∃ d, totalCoverageOfRoot root = Except.ok d ∧ d.get k = PyNum.int 0) ∧
    (∀ (root : Elem) (k : CounterKind) (c : Elem),
      wellFormedReport root = true →
      c ∈ countersOf (kindType k) root → posTotal c = true →
      ∃ d, totalCoverageOfRoot root = Except.ok d ∧
        PyNum.isFloat (d.get k) = true) ∧
    totalCoverageOfRoot docM =
      Except.ok ⟨PyNum.float 0, PyNum.int 0, PyNum.int 0, PyNum.int 0⟩ ∧
    (∀ (tg : String) (ats uats : List (String × String)) (cs1 cs2 : List Elem)
      (utype : String),
      uats.lookup "type" = some utype →
      utype ∉ (["LINE", "BRANCH", "METHOD", "INSTRUCTION"] : List String) →
      totalCoverageOfRoot
        (Elem.node tg ats (cs1 ++ Elem.node "counter" uats [] :: cs2)) =
      totalCoverageOfRoot (Elem.node tg ats (cs1 ++ cs2))) := by
  refine ⟨?_, ?_, ?_, ?_⟩
  · intro root k hwf habs
    refine ⟨_, totalRoot_wf hwf, ?_⟩
    cases k <;> simp_all [CoverageData.get, kindValue, kindType, lastPos]
  · intro root k c hwf hmem hp
    obtain ⟨d, hd⟩ := lastPos_isSome hmem hp
    refine ⟨_, totalRoot_wf hwf, ?_⟩
    cases k <;> simp_all [CoverageData.get, kindValue, kindType, PyNum.isFloat]
  · rw [totalRoot_wf (by decide)]
    have h0 : pctQ docMc = 0 := by
      simp only [pctQ, show covD docMc = 0 from by decide,
        show misD docMc = 20 from by decide]
      norm_num [round2, roundHalfEven]
    rw [show kindValue "LINE" docM = PyNum.float (pctQ docMc) from rfl]
    rw [show kindValue "BRANCH" docM = PyNum.int 0 from rfl]
    rw [show kindValue "METHOD" docM = PyNum.int 0 from rfl]
    rw [show kindValue "INSTRUCTION" docM = PyNum.int 0 from rfl]
    rw [h0]
  · intro tg ats uats cs1 cs2 utype hlk hnot
    have hfilter : ∀ t : String,
        t ∈ (["LINE", "BRANCH", "METHOD", "INSTRUCTION"] : List String) →
        countersOf t (Elem.node tg ats
          (cs1 ++ Elem.node "counter" uats [] :: cs2)) =
        countersOf t (Elem.node tg ats (cs1 ++ cs2)) := by
      intro t ht
      have hne : utype ≠ t := fun h => hnot (h ▸ ht)
      have hbeq : (Elem.attr (Elem.node "counter" uats []) "type"
          == some t) = false := by
        simp [Elem.attr, hlk, hne]
      simp [countersOf, Elem.descendants, descList_append, descList,
        List.filter_append, hbeq]
    simp only [totalCoverageOfRoot,
      hfilter "LINE" (by simp), hfilter "BRANCH" (by simp),
      hfilter "METHOD" (by simp), hfilter "INSTRUCTION" (by simp)]

theorem total_coverage_defaults_and_unknown_kinds_witness :
    (∃ d, totalCoverageOfRoot doc80 = Except.ok d ∧
      d.get CounterKind.branch = PyNum.int 0) ∧
    (∃ d, totalCoverageOfRoot doc80 = Except.ok d ∧
      PyNum.isFloat (d.get CounterKind.line) = true) ∧
    totalCoverageOfRoot (Elem.node "report" []
        (Elem.node "counter" [("type", "FOO")] [] :: [doc80c])) =
      totalCoverageOfRoot (Elem.node "report" [] [doc80c]) := by
  refine ⟨?_, ?_, ?_⟩
  · exact total_coverage_defaults_and_unknown_kinds.1 doc80
      CounterKind.branch (by decide) rfl
  · exact total_coverage_defaults_and_unknown_kinds.2.1 doc80
      CounterKind.line doc80c (by decide) (List.mem_singleton.mpr rfl)
      (by decide)
  · exact total_coverage_defaults_and_unknown_kinds.2.2.2 "report" []
      [("type", "FOO")] [] [doc80c] "FOO" rfl (by decide)

/-!
Specification-side characterisation of `missing_coverage`: the selection
predicate of §4.3 (substring match on the compiled-artifact name or the
full path) and the uncovered-line criterion (covered-instruction count
exactly zero).
-/

/-- The ci value of a line node (0 if the conversion fails). -/
def ciD (e : Elem) : Int :=
  match pyIntGetD e "ci" with
  | .ok n => n
  | .error _ => 0

/-- The nr value of a line node (0 if the conversion fails). -/
def nrD (e : Elem) : Int :=
  match pyIntGet e "nr" with
  | .ok n => n
  | .error _ => 0

/-- The cb value of a line node (0 if the conversion fails). -/
def cbD (e : Elem) : Int :=
  match pyIntGetD e "cb" with
  | .ok n => n
  | .error _ => 0

/-- The uncovered_lines entry built from a line node. -/
def entryOf (e : Elem) : UncoveredLine :=
  ⟨nrD e, ciD e, cbD e⟩

/-- The int conversions a line node needs succeed: ci always, and nr/cb
when the line is flagged (ci = 0). -/
def lineOk (e : Elem) : Bool :=
  exOk (pyIntGetD e "ci") &&
    (ciD e != 0 || (exOk (pyIntGet e "nr") && exOk (pyIntGetD e "cb")))

/-- §4.3 selection predicate: the recorded source-file name contains the
target's base name with .java replaced by .class, or contains the full
path string — a substring match, not an exact one. -/
def matchesEntry (fp : String) (sf : Elem) : Bool :=
  strIn (pyReplace (basename fp) ".java" ".class") ((sf.attr "name").getD "") ||
    strIn fp ((sf.attr "name").getD "")

/-- A matched sourcefile entry has only clean lines (unmatched entries
are never read). -/
def sfOk (fp : String) (sf : Elem) : Bool :=
  !matchesEntry fp sf || (linesOf sf).all lineOk

/-- The uncovered lines §4.3 describes: for each matched sourcefile
entry, exactly its lines whose ci is 0, in document order. -/
def uncoveredSpec (fp : String) (root : Elem) : List UncoveredLine :=
  ((sourcefilesOf root).filter (matchesEntry fp)).flatMap
    (fun sf => ((linesOf sf).filter (fun e => ciD e == 0)).map entryOf)

/-- The inner line loop collects exactly the zero-ci lines. -/
theorem lineGo_ok (l : List Elem) (acc : List UncoveredLine)
    (h : ∀ e ∈ l, lineOk e = true) :
    lineGo l acc =
      .ok (acc ++ (l.filter (fun e => ciD e == 0)).map entryOf) := by
  induction l generalizing acc with
  | nil => simp [lineGo]
  | cons e rest ih =>
    have he := h e (List.mem_cons_self e rest)
    have hrest : ∀ x ∈ rest, lineOk x = true :=
      fun x hx => h x (List.mem_cons_of_mem e hx)
    rw [lineOk, Bool.and_eq_true] at he
    obtain ⟨ci, hci⟩ := exOk_ex he.1
    have hcid : ciD e = ci := by simp [ciD, hci]
    by_cases h0 : ci = 0
    · subst h0
      have he2 := he.2
      rw [hcid] at he2
      simp only [bne_self_eq_false, Bool.false_or, Bool.and_eq_true] at he2
      obtain ⟨nr, hnr⟩ := exOk_ex he2.1
      obtain ⟨cb, hcb⟩ := exOk_ex he2.2
      have hnrd : nrD e = nr := by simp [nrD, hnr]
      have hcbd : cbD e = cb := by simp [cbD, hcb]
      simp only [lineGo, hci, hnr, hcb, exBind_ok, beq_self_eq_true, if_true]
      rw [ih _ hrest]
      simp [List.filter_cons, hcid, entryOf, hnrd, hcbd, List.append_assoc]
    · simp only [lineGo, hci, exBind_ok]
      rw [if_neg (by simp [h0] : ¬((ci == 0) = true))]
      rw [ih _ hrest]
      simp [List.filter_cons, hcid, h0]

/-- The outer loop processes exactly the matched entries. -/
theorem sfGo_ok (fp : String) (l : List Elem) (acc : List UncoveredLine)
    (h : ∀ sf ∈ l, sfOk fp sf = true) :
    sfGo (pyReplace (basename fp) ".java" ".class") fp l acc =
      .ok (acc ++ (l.filter (matchesEntry fp)).flatMap
        (fun sf => ((linesOf sf).filter (fun e => ciD e == 0)).map entryOf)) := by
  induction l generalizing acc with
  | nil => simp [sfGo]
  | cons sf rest ih =>
    have hsf := h sf (List.mem_cons_self sf rest)
    have hrest : ∀ x ∈ rest, sfOk fp x = true :=
      fun x hx => h x (List.mem_cons_of_mem sf hx)
    cases hm : matchesEntry fp sf with
    | true =>
      have hlines : ∀ e ∈ linesOf sf, lineOk e = true := by
        rw [sfOk, hm] at hsf
        simp only [Bool.not_true, Bool.false_or] at hsf
        exact fun e he => List.all_eq_true.mp hsf e he
      have hmE : (strIn (pyReplace (basename fp) ".java" ".class")
          ((sf.attr "name").getD "") ||
          strIn fp ((sf.attr "name").getD "")) = true := hm
      simp only [sfGo, hmE, if_true]
      rw [lineGo_ok _ _ hlines, exBind_ok, ih _ hrest]
      simp [List.filter_cons, hm, List.append_assoc]
    | false =>
      have hmE : (strIn (pyReplace (basename fp) ".java" ".class")
          ((sf.attr "name").getD "") ||
          strIn fp ((sf.attr "name").getD "")) = false := hm
      simp only [sfGo, hmE, Bool.false_eq_true, if_false]
      rw [ih _ hrest]
      simp [List.filter_cons, hm]

/-- The XML-tree part of `missing_coverage` on clean inputs returns
exactly the §4.3 selection. -/
theorem missingRoot_ok (fp : String) (root : Elem)
    (h : ∀ sf ∈ sourcefilesOf root, sfOk fp sf = true) :
    missingCoverageOfRoot fp root = .ok ⟨fp,
      (uncoveredSpec fp root).length, uncoveredSpec fp root⟩ := by
  simp only [missingCoverageOfRoot, sfGo_ok fp _ [] h]
  simp [uncoveredSpec]

/-- C7's concrete document: one matched sourcefile with a ci=0 line at
nr=1 and a ci=3 line at nr=2. -/
def doc7 : Elem :=
  Elem.node "report" []
    [Elem.node "sourcefile" [("name", "Foo.class")]
      [Elem.node "line" [("nr", "1"), ("ci", "0")] [],
       Elem.node "line" [("nr", "2"), ("ci", "3")] []]]

/-- C7: for every matched sourcefile entry missing_coverage reports a
line as uncovered exactly when its ci attribute converts to 0 (lines with
positive ci are not flagged, whatever their branch data); on a matched
sourcefile with a ci="0" line and a ci="3" line the result has exactly
one entry, the zero-instruction line. -/
theorem missing_coverage_flags_exactly_zero_ci :
    (∀ (fp : String) (root : Elem),
      (∀ sf ∈ sourcefilesOf root, sfOk fp sf = true) →
      missingCoverageOfRoot fp root = Except.ok ⟨fp,
        (uncoveredSpec fp root).length, uncoveredSpec fp root⟩) ∧
    missingCoverageOfRoot "Foo.java" doc7 =
      Except.ok ⟨"Foo.java", 1, [⟨1, 0, 0⟩]⟩ := by
  exact ⟨fun fp root h => missingRoot_ok fp root h, rfl⟩

theorem missing_coverage_flags_exactly_zero_ci_witness :
    missingCoverageOfRoot "Foo.java" doc7 = Except.ok ⟨"Foo.java",
      (uncoveredSpec "Foo.java" doc7).length, uncoveredSpec "Foo.java" doc7⟩ :=
  missing_coverage_flags_exactly_zero_ci.1 "Foo.java" doc7 (by decide)

/-- C8's concrete document: the only sourcefile is recorded under a name
that merely CONTAINS Foo.class, showing the over-matching substring
behavior. -/
def docOver : Elem :=
  Elem.node "report" []
    [Elem.node "sourcefile" [("name", "com/app/MyFoo.class")]
      [Elem.node "line" [("nr", "7"), ("ci", "0")] []]]

/-- C8: a sourcefile entry is selected iff its name attribute contains,
as a substring, the target's base name with .java replaced by .class or
the full input path; the match is substring containment, not equality, so
an entry named com/app/MyFoo.class is selected for target src/Foo.java
even though the names differ. -/
theorem missing_coverage_selects_by_substring :
    (∀ (fp : String) (root : Elem),
      (∀ sf ∈ sourcefilesOf root, sfOk fp sf = true) →
      missingCoverageOfRoot fp root = Except.ok ⟨fp,
        (((sourcefilesOf root).filter (fun sf =>
            strIn (pyReplace (basename fp) ".java" ".class")
              ((sf.attr "name").getD "") ||
            strIn fp ((sf.attr "name").getD ""))).flatMap
          (fun sf => ((linesOf sf).filter
            (fun e => ciD e == 0)).map entryOf)).length,
        ((sourcefilesOf root).filter (fun sf =>
            strIn (pyReplace (basename fp) ".java" ".class")
              ((sf.attr "name").getD "") ||
            strIn fp ((sf.attr "name").getD ""))).flatMap
          (fun sf => ((linesOf sf).filter
            (fun e => ciD e == 0)).map entryOf)⟩) ∧
    (pyReplace (basename "src/Foo.java") ".java" ".class" = "Foo.class" ∧
     strIn "Foo.class" "com/app/MyFoo.class" = true ∧
     ("com/app/MyFoo.class" == "Foo.class") = false ∧
     missingCoverageOfRoot "src/Foo.java" docOver =
       Except.ok ⟨"src/Foo.java", 1, [⟨7, 0, 0⟩]⟩) := by
  refine ⟨fun fp root h => missingRoot_ok fp root h, by decide, by decide,
    by decide, rfl⟩

theorem missing_coverage_selects_by_substring_witness :
    missingCoverageOfRoot "src/Foo.java" docOver = Except.ok ⟨"src/Foo.java",
      (((sourcefilesOf docOver).filter (fun sf =>
          strIn (pyReplace (basename "src/Foo.java") ".java" ".class")
            ((sf.attr "name").getD "") ||
          strIn "src/Foo.java" ((sf.attr "name").getD ""))).flatMap
        (fun sf => ((linesOf sf).filter
          (fun e => ciD e == 0)).map entryOf)).length,
      ((sourcefilesOf docOver).filter (fun sf =>
          strIn (pyReplace (basename "src/Foo.java") ".java" ".class")
            ((sf.attr "name").getD "") ||
          strIn "src/Foo.java" ((sf.attr "name").getD ""))).flatMap
        (fun sf => ((linesOf sf).filter
          (fun e => ciD e == 0)).map entryOf)⟩ :=
  missing_coverage_selects_by_substring.1 "src/Foo.java" docOver (by decide)

/-- With a non-zero divisor the division itself cannot fault. -/
theorem pyFloatDiv_ok (a b : PyFloat) (h : b.isZero = false) :
    ∃ r, pyFloatDiv a b = .ok r := by
  unfold pyFloatDiv
  rw [if_neg (by simp [h])]
  cases a <;> cases b <;> exact ⟨_, rfl⟩

/-- C10: `divide` never raises a division fault: for b equal to 0
(including the negative zero) it returns positive infinity regardless of
the sign of a, and otherwise it returns a / b. -/
theorem divide_never_raises (a b : PyFloat) :
    (∃ r, divide a b = Except.ok r) ∧
    (b.isZero = true → divide a b = Except.ok PyFloat.inf) ∧
    (b.isZero = false → divide a b = pyFloatDiv a b) := by
  refine ⟨?_, ?_, ?_⟩
  · by_cases h : b.isZero = true
    · exact ⟨.inf, by simp [divide, h]⟩
    · have h' : b.isZero = false := by simpa using h
      obtain ⟨r, hr⟩ := pyFloatDiv_ok a b h'
      exact ⟨r, by simp [divide, h', hr]⟩
  · intro h
    simp [divide, h]
  · intro h
    simp [divide, h]

theorem divide_never_raises_witness :
    divide (PyFloat.finite (-1)) PyFloat.negZero = Except.ok PyFloat.inf ∧
    divide (PyFloat.finite 6) (PyFloat.finite 3) =
      pyFloatDiv (PyFloat.finite 6) (PyFloat.finite 3) :=
  ⟨(divide_never_raises (PyFloat.finite (-1)) PyFloat.negZero).2.1 rfl,
   (divide_never_raises (PyFloat.finite 6) (PyFloat.finite 3)).2.2
     (by norm_num [PyFloat.isZero])⟩

/-!
Equivalence of the two copies of the coverage tools (C9): the function
bodies in src/server.py and in
src/final_project_se333_sidiqa/codebase/server.py are identical, and the
embeddings agree on every input.
-/

theorem codebase_find_eq (path_exists : String → Bool) (project_path : String) :
    codebase.find_jacoco_path path_exists project_path =
      find_jacoco_path path_exists project_path := rfl

theorem codebase_countersOf_eq (t : String) (root : Elem) :
    codebase.countersOf t root = countersOf t root := rfl

theorem codebase_linesOf_eq (sf : Elem) :
    codebase.linesOf sf = linesOf sf := rfl

theorem codebase_sourcefilesOf_eq (root : Elem) :
    codebase.sourcefilesOf root = sourcefilesOf root := rfl

theorem codebase_covGo_eq (l : List Elem) (acc : PyNum) :
    codebase.covGo l acc = covGo l acc := by
  induction l generalizing acc with
  | nil => rfl
  | cons c rest ih =>
    simp only [codebase.covGo, covGo]
    cases pyIntGetD c "covered" with
    | error e => rfl
    | ok cov =>
      simp only [exBind_ok]
      cases pyIntGetD c "missed" with
      | error e => rfl
      | ok mis =>
        simp only [exBind_ok]
        split <;> exact ih _

theorem codebase_totalRoot_eq (root : Elem) :
    codebase.totalCoverageOfRoot root = totalCoverageOfRoot root := by
  simp only [codebase.totalCoverageOfRoot, totalCoverageOfRoot,
    codebase_covGo_eq, codebase_countersOf_eq]

theorem codebase_total_coverage_eq (fs : String → Option String)
    (xmlParse : String → Except String Elem) (project_path : String) :
    codebase.total_coverage fs xmlParse project_path =
      total_coverage fs xmlParse project_path := by
  simp only [codebase.total_coverage, total_coverage, codebase_find_eq,
    codebase_totalRoot_eq]

theorem codebase_lineGo_eq (l : List Elem) (acc : List UncoveredLine) :
    codebase.lineGo l acc = lineGo l acc := by
  induction l generalizing acc with
  | nil => rfl
  | cons e rest ih =>
    simp only [codebase.lineGo, lineGo]
    cases pyIntGetD e "ci" with
    | error m => rfl
    | ok ci =>
      simp only [exBind_ok]
      split
      · cases pyIntGet e "nr" with
        | error m => rfl
        | ok nr =>
          simp only [exBind_ok]
          cases pyIntGetD e "cb" with
          | error m => rfl
          | ok cb =>
            simp only [exBind_ok]
            exact ih _
      · exact ih _

theorem codebase_sfGo_eq (file_name file_path : String) (l : List Elem)
    (acc : List UncoveredLine) :
    codebase.sfGo file_name file_path l acc = sfGo file_name file_path l acc := by
  induction l generalizing acc with
  | nil => rfl
  | cons sf rest ih =>
    simp only [codebase.sfGo, sfGo, codebase_lineGo_eq, codebase_linesOf_eq]
    split
    · cases lineGo (linesOf sf) acc with
      | error m => rfl
      | ok acc2 =>
        simp only [exBind_ok]
        exact ih _
    · exact ih _

theorem codebase_missingRoot_eq (file_path : String) (root : Elem) :
    codebase.missingCoverageOfRoot file_path root =
      missingCoverageOfRoot file_path root := by
  simp only [codebase.missingCoverageOfRoot, missingCoverageOfRoot,
    codebase_sfGo_eq, codebase_sourcefilesOf_eq]

theorem codebase_missing_coverage_eq (fs : String → Option String)
    (xmlParse : String → Except String Elem) (file_path project_path : String) :
    codebase.missing_coverage fs xmlParse file_path project_path =
      missing_coverage fs xmlParse file_path project_path := by
  simp only [codebase.missing_coverage, missing_coverage, codebase_find_eq,
    codebase_missingRoot_eq]

/-- C9: the two copies of the coverage tools are extensionally equal: on
every input, find_jacoco_path, total_coverage and missing_coverage of
src/server.py agree with the functions of the same names in
src/final_project_se333_sidiqa/codebase/server.py. -/
theorem copies_equivalent :
    (∀ (path_exists : String → Bool) (project_path : String),
      codebase.find_jacoco_path path_exists project_path =
        find_jacoco_path path_exists project_path) ∧
    (∀ (fs : String → Option String) (xmlParse : String → Except String Elem)
      (project_path : String),
      codebase.total_coverage fs xmlParse project_path =
        total_coverage fs xmlParse project_path) ∧
    (∀ (fs : String → Option String) (xmlParse : String → Except String Elem)
      (file_path project_path : String),
      codebase.missing_coverage fs xmlParse file_path project_path =
        missing_coverage fs xmlParse file_path project_path) :=
  ⟨codebase_find_eq, codebase_total_coverage_eq, codebase_missing_coverage_eq⟩

